import Mathlib

/-!
Verification of the structured-identifier recognition pipeline
(presidio_analyzer/predefined_recognizers).

Shallow embedding conventions:
* Python strings are modelled as `List Char` (all inputs considered here are
  ASCII, so `Char.toLower`, `Char.isDigit`, `Char.isAlpha` coincide with the
  Python `str` methods on the characters that occur).
* Confidence scores (Python floats) are modelled as exact rationals `ℚ`; every
  score operation in the sources is an assignment of a literal, `min (s + c) 1`,
  or `s * c`, all exact in binary-free rational arithmetic at the granularity
  the claims are stated.
* Python exceptions are modelled with `Option`: a function that can raise
  (IndexError, KeyError, uncaught ValueError) returns `none` there.
* `RecognizerResult.end_` stands for the Python attribute `end` (a reserved
  word in Lean).
-/

/-- The externally visible result record (`RecognizerResult` in presidio). -/
structure RecognizerResult where
  entity_type : String
  start : Nat
  end_ : Nat
  score : ℚ
deriving DecidableEq, Repr

/-- Characters of a string literal. -/
def strChars (s : String) : List Char := s.data

/-- Python slice `text[a:b]` for `0 ≤ a, b` (clipping, empty when `b ≤ a`). -/
def sliceText (text : List Char) (a b : Nat) : List Char :=
  (text.drop a).take (b - a)

/-- Python `str.lower()` (ASCII). -/
def pyLower (s : List Char) : List Char := s.map Char.toLower

/-- Python substring containment `needle in hay` for strings. -/
def pyInStr (needle hay : List Char) : Bool := decide (List.IsInfix needle hay)

/-- Characters matched by the Python regex `\s`. -/
def isPyWhitespace (c : Char) : Bool :=
  c = ' ' || c = '\t' || c = '\n' || c = '\r' || c = '\x0b' || c = '\x0c'

/-- Python `int(c)` for a single character: its digit value, raising
(`none`) on a non-digit. -/
def pyDigitVal (c : Char) : Option Nat :=
  if c.isDigit then some (c.toNat - '0'.toNat) else none

/-- Python `int(s)` on a string of ASCII digits: `none` (ValueError) when the
string is empty or contains a non-digit character. -/
def pyParseNat (s : List Char) : Option Nat :=
  if s ≠ [] ∧ s.all Char.isDigit then
    some (s.foldl (fun a c => 10 * a + (c.toNat - '0'.toNat)) 0)
  else none

namespace Italy
/-!
`Italy_fiscal_code_recognizer.py` (`ItalyFiscalCodeRecognizer`).
-/

/-- Source: `ODD_VALUES`: dict from characters to positional values (letters A–Z and
digits 0–9); `none` models a KeyError on any other character. -/
def ODD_VALUES (c : Char) : Option Nat :=
  List.lookup c
    ((List.zip "ABCDEFGHIJKLMNOPQRSTUVWXYZ".data
        [1, 0, 5, 7, 9, 13, 15, 17, 19, 21, 2, 4, 18, 20, 11, 3, 6, 8, 12, 14,
         16, 10, 22, 25, 24, 23]) ++
      (List.zip "0123456789".data [1, 0, 5, 7, 9, 13, 15, 17, 19, 21]))

/-- Source: `EVEN_VALUES`: letters A–Z map to 0–25, digits to their value. -/
def EVEN_VALUES (c : Char) : Option Nat :=
  List.lookup c
    ((List.zip "ABCDEFGHIJKLMNOPQRSTUVWXYZ".data (List.range 26)) ++
      (List.zip "0123456789".data (List.range 10)))

/-- Source: `re.sub(r'[^A-Z0-9]', '', s)`: keep only uppercase ASCII letters and
digits. -/
def stripNonAlnum (s : List Char) : List Char :=
  s.filter (fun c => ('A' ≤ c && c ≤ 'Z') || c.isDigit)

/-- Source: `ItalyFiscalCodeRecognizer._validate_checksum`. -/
def _validate_checksum (code : List Char) : Option Bool :=
  if code.length ≠ 16 then some false
  else do
    let sum ← (code.dropLast).enum.foldlM
      (fun acc ic =>
        (if ic.1 % 2 = 0 then ODD_VALUES ic.2 else EVEN_VALUES ic.2).map
          (fun v => acc + v)) 0
    let checksum_char := Char.ofNat ((sum % 26) + 'A'.toNat)
    let last ← code.getLast?
    some (checksum_char == last)

/-- Source: `CONTEXT` keywords. -/
def CONTEXT : List String :=
  ["codice fiscale", "fiscal code", "italian tax code", "italy personal code"]

/-- Source: `any(keyword.lower() in text.lower() for keyword in self.CONTEXT)`. -/
def contextBoost (text : List Char) : Bool :=
  CONTEXT.any (fun k => pyInStr (pyLower k.data) (pyLower text))

/-- Source: `ItalyFiscalCodeRecognizer.analyze`, parameterized by the result list the
base-class `analyze` produced.  Note the source validates
`re.sub(r'[^A-Z0-9]', '', result.entity_type)` — the entity-type label,
not the matched text. -/
def analyze (text : List Char) :
    List RecognizerResult → Option (List RecognizerResult)
  | [] => some []
  | result :: rest => do
    let code := stripNonAlnum result.entity_type.data
    let ok ← _validate_checksum code
    let s1 : ℚ := if ok then 1 else 0
    let s2 : ℚ := if contextBoost text then min (s1 + mkRat 3 10) 1 else s1
    let tail ← analyze text rest
    some (RecognizerResult.mk result.entity_type result.start result.end_ s2
      :: tail)

end Italy

namespace EUIban
/-!
`eu_iban_numbers_recognizer.py` (`EU_IBANRecognizer`).
-/

/-- Python `int(c, 36)` for a single character (`none` = ValueError).  The
source applies it only to characters with `c.isalpha()`. -/
def pyInt36 (c : Char) : Option Nat :=
  if c.isDigit then some (c.toNat - '0'.toNat)
  else if c.isAlpha then some (10 + (c.toLower.toNat - 'a'.toNat))
  else none

/-- Source: `EU_IBANRecognizer._is_valid_checksum`: move the first four characters to
the end, expand letters via `str(int(char, 36))`, and test
`int(numeric_iban) % 97 == 1`, with the final `int` guarded by
`try/except ValueError` (the per-character `int(char, 36)` is not guarded,
hence the `Option`). -/
def _is_valid_checksum (iban : List Char) : Option Bool := do
  let rearranged := iban.drop 4 ++ iban.take 4
  let parts ← rearranged.mapM (fun c =>
    if c.isAlpha then (pyInt36 c).map (Nat.toDigits 10) else some [c])
  let numeric_iban := parts.flatten
  some (match pyParseNat numeric_iban with
        | some n => n % 97 == 1
        | none => false)

/-- Source: `EU_IBANRecognizer.analyze`, parameterized by the base-class results. -/
def analyze (text : List Char) :
    List RecognizerResult → Option (List RecognizerResult)
  | [] => some []
  | result :: rest => do
    let iban_number := sliceText text result.start result.end_
    let cleaned_iban := iban_number.filter (fun c => ¬ isPyWhitespace c)
    let ok ← _is_valid_checksum cleaned_iban
    let tail ← analyze text rest
    some (RecognizerResult.mk result.entity_type result.start result.end_
      (if ok then 1 else 0) :: tail)

end EUIban

namespace Australia
/-!
`australia_bank_account_numbers_recognizer.py`
(`AustraliaBankAccountRecognizer`).
-/

/-- Source: `KNOWN_BSB_NUMBERS`. -/
def KNOWN_BSB_NUMBERS : List String :=
  ["012-785", "012-911", "013-961", "016-936", "016-985", "032-139", "033-141",
   "035-825", "062-136", "062-707", "062-904", "064-159", "085-645", "087-600",
   "105-069", "105-083", "105-110", "105-133", "105-141", "105-146", "105-152",
   "257-019", "257-028", "257-037", "257-046", "257-055", "257-064", "257-073",
   "257-082", "257-091", "257-100", "257-109", "257-118", "257-127", "257-136",
   "257-145", "257-154", "257-163", "257-172", "257-181", "257-190", "257-199",
   "257-208", "257-217", "257-235", "257-244", "257-253", "257-262", "257-271",
   "257-280", "257-289", "257-298", "482-158", "482-160", "484-095", "484-113",
   "484-121", "484-122", "484-123", "484-129", "484-133", "484-191", "484-192",
   "484-193", "484-194", "484-482", "484-552", "484-799", "484-888", "484-911",
   "484-915", "732-139", "733-141", "762-136", "762-707", "762-904", "764-159",
   "802-887", "803-110", "803-136", "803-420", "803-421", "807-125", "807-126",
   "808-269", "808-270", "808-271", "808-272", "808-273", "808-274", "808-275",
   "808-276", "808-277"]

/-- Source: `CONTEXT` (checked verbatim, case-sensitively, against `text.lower()`). -/
def CONTEXT : List String :=
  ["bank account", "account number", "Australia bank account number",
   "Acct Num", "swift bank code", "correspondent bank", "base currency",
   "Australia bank account", "account holder ", "bank address",
   "information account", "fund transfers", "bank charges", "bank details",
   "banking information", "account number with bsb", "acc no. with bsb code"]

/-- Source: `NEGATIVE_CONTEXT`. -/
def NEGATIVE_CONTEXT : List String :=
  ["driver", "license", "identification", "permit", "licence"]

/-- Source: `AustraliaBankAccountRecognizer._match_known_bsb`. -/
def _match_known_bsb (bsb_number : List Char) : ℚ :=
  if KNOWN_BSB_NUMBERS.contains (String.mk bsb_number) then 1 else mkRat 1 2

/-- Whether the regex `(\d{3}-\d{3})-(\d{6,10})` matches at the head of `s`;
returns capture group 1 on success. -/
def matchBsbAt (s : List Char) : Option (List Char) :=
  match s with
  | a :: b :: c :: h1 :: d :: e :: f :: h2 :: rest =>
    if a.isDigit && b.isDigit && c.isDigit && h1 = '-' &&
        d.isDigit && e.isDigit && f.isDigit && h2 = '-' &&
        decide (6 ≤ (rest.takeWhile Char.isDigit).length) then
      some [a, b, c, h1, d, e, f]
    else none
  | _ => none

/-- Source: `re.search(r"(\d{3}-\d{3})-(\d{6,10})", s)`: leftmost match, group 1. -/
def searchBsb : List Char → Option (List Char)
  | [] => none
  | s@(_ :: t) => (matchBsbAt s).orElse (fun _ => searchBsb t)

/-- Stage 1 of the `analyze` loop body: positive-context damping
(`result.score *= 0.3` when no context word occurs in `text.lower()`). -/
def contextStage (text : List Char) (score : ℚ) : ℚ :=
  if ¬ (CONTEXT.any (fun w => pyInStr w.data (pyLower text))) then
    score * mkRat 3 10
  else score

/-- Stage 2: negative-context damping (`*= 0.15`). -/
def negStage (text : List Char) (score : ℚ) : ℚ :=
  if NEGATIVE_CONTEXT.any (fun w => pyInStr w.data (pyLower text)) then
    score * mkRat 15 100
  else score

/-- Stage 3: BSB lookup override. -/
def bsbStage (text : List Char) (result : RecognizerResult) (score : ℚ) : ℚ :=
  if result.entity_type = "AUSTRALIA_BANK_ACCOUNT" then
    match searchBsb (sliceText text result.start result.end_) with
    | some bsb_number => _match_known_bsb bsb_number
    | none => score
  else score

/-- Source: `AustraliaBankAccountRecognizer.analyze`, parameterized by the base-class
results: the three score stages in order, then the `score > 0.3` keep
filter. -/
def analyze (text : List Char) (results : List RecognizerResult) :
    List RecognizerResult :=
  results.filterMap (fun result =>
    let s3 := bsbStage text result (negStage text (contextStage text result.score))
    if s3 > mkRat 3 10 then
      some (RecognizerResult.mk result.entity_type result.start result.end_ s3)
    else none)

end Australia

namespace Spain
/-!
`spain_national_identification_numbers_recognizer.py` (`SpainDNIRecognizer`).
-/

/-- Source: `CONTEXT` keywords. -/
def CONTEXT : List String :=
  ["DNI", "Documento Nacional de Identidad", "national ID",
   "identificación nacional", "número de identificación",
   "identification number", "national identification"]

/-- The check-letter table. -/
def valid_letters : List Char := "TRWAGMYFPDXBNJZSQVHLCKE".data

/-- Source: `SpainDNIRecognizer._validate_dni_checksum`.  `dni[-1]` raises on the
empty string (`none`); `int(dni_number)` is guarded by `except ValueError`
(→ `false`); the table index `mod_value` is always `< 23 = |valid_letters|`,
so `getD` never takes its default. -/
def _validate_dni_checksum (dni : List Char) : Option Bool := do
  let dni_number := dni.dropLast
  let dni_letter ← dni.getLast?
  some (match pyParseNat dni_number with
        | some n => valid_letters.getD (n % 23) ' ' == dni_letter
        | none => false)

/-- Source: `SpainDNIRecognizer._adjust_score_based_on_context`. -/
def _adjust_score_based_on_context (text : List Char) (score : ℚ) : ℚ :=
  if CONTEXT.any (fun k => pyInStr (pyLower k.data) (pyLower text)) then
    min (score + mkRat 3 10) 1
  else score

/-- Source: `SpainDNIRecognizer.analyze`, parameterized by the base-class results. -/
def analyze (text : List Char) :
    List RecognizerResult → Option (List RecognizerResult)
  | [] => some []
  | result :: rest => do
    let ok ← _validate_dni_checksum (sliceText text result.start result.end_)
    let score := if ok then _adjust_score_based_on_context text result.score
                 else 0
    let tail ← analyze text rest
    some (RecognizerResult.mk result.entity_type result.start result.end_ score
      :: tail)

end Spain

namespace Canada
/-!
`canada_driving_license_recognizer.py` (`CanadaDriversLicenceRecognizer`):
the overlap-resolution loop at the end of `analyze`.
-/

/-- The overlap test of the resolution loop:
`(fr.start <= result.start < fr.end) or (result.start <= fr.start < result.end)`. -/
def overlaps (fr result : RecognizerResult) : Bool :=
  (fr.start ≤ result.start && result.start < fr.end_) ||
    (result.start ≤ fr.start && fr.start < result.end_)

/-- One iteration of the outer loop: compare `result` against every kept
candidate; any kept candidate it overlaps with a strictly lower score has
its `start`, `end` and `score` overwritten by `result`'s; `result` itself is
appended only when it overlaps nothing. -/
def step (filtered_results : List RecognizerResult)
    (result : RecognizerResult) : List RecognizerResult :=
  let overlap := filtered_results.any (fun fr => overlaps fr result)
  let updated := filtered_results.map (fun fr =>
    if overlaps fr result ∧ fr.score < result.score then
      RecognizerResult.mk fr.entity_type result.start result.end_ result.score
    else fr)
  if overlap then updated else updated ++ [result]

/-- Source: `CanadaDriversLicenceRecognizer.analyze`, parameterized by the base-class
results: the overlap-resolution sweep. -/
def analyze (results : List RecognizerResult) : List RecognizerResult :=
  results.foldl step []

end Canada

/-- Digit-subtraction step of a Luhn sum. -/
def dsub (x : Nat) : Nat := if x > 9 then x - 9 else x

/-- Luhn accumulator over digits listed from the rightmost: every second one
is doubled with 9 subtracted from products above 9. -/
def luhnAux : Bool → List Nat → Nat
  | _, [] => 0
  | alt, d :: rest => (if alt then dsub (2 * d) else d) + luhnAux (!alt) rest

/-- Modelled from the spec: the "Luhn sum (doubling every second digit from
the right and subtracting 9 from any product above 9)" of a digit list.
Used as the specification side of claim C7; the source validators are
embedded separately below and compared to it. -/
def luhnSum (ds : List Nat) : Nat := luhnAux false ds.reverse

/-- Digit values of a list of ASCII digit characters. -/
def digitVals (s : List Char) : List Nat :=
  s.map (fun c => c.toNat - '0'.toNat)

namespace AllCC
/-!
`all_credit_card_number_recognizer.py` (`AllCreditCardNumberRecognizer`).
-/

/-- Python `str.isdigit()`: nonempty and all digits (ASCII fragment). -/
def pyIsDigitStr (s : List Char) : Bool := !s.isEmpty && s.all Char.isDigit

/-- The indexed Luhn loop of `_is_valid_credit_card`:
`for count in range(num_digits)`, doubling when
`not ((count & 1) ^ odd_even)`, i.e. when `count % 2 == odd_even`, then
`if digit > 9: digit -= 9`. -/
def accLoop (odd_even : Nat) : Nat → List Nat → Nat
  | _, [] => 0
  | count, d :: rest =>
    let digit := if count % 2 = odd_even then d * 2 else d
    let digit := if digit > 9 then digit - 9 else digit
    digit + accLoop odd_even (count + 1) rest

/-- Source: `AllCreditCardNumberRecognizer._is_valid_credit_card`: strip `[\s-]`,
require `isdigit`, then the indexed Luhn loop with
`odd_even = num_digits & 1`.  Total: every `int()` call is guarded by the
`isdigit` check. -/
def _is_valid_credit_card (card_number : List Char) : Bool :=
  let cleaned := card_number.filter (fun c => !(isPyWhitespace c || c = '-'))
  if !pyIsDigitStr cleaned then false
  else accLoop (cleaned.length % 2) 0 (digitVals cleaned) % 10 == 0

end AllCC

namespace CCTrack
/-!
`cc_track_data_attachments_recognizer.py` (`CCTrackDataRecognizer`).
-/

/-- Python `digits_of(n) = [int(d) for d in str(n)]` for a natural number:
its decimal digit values. -/
def digits_of (n : Nat) : List Nat :=
  (Nat.toDigits 10 n).map (fun c => c.toNat - '0'.toNat)

/-- Python extended slice `s[::2]`: elements at even indices. -/
def evens : List α → List α
  | [] => []
  | [x] => [x]
  | x :: _ :: rest => x :: evens rest

/-- Source: `CCTrackDataRecognizer.validate_ccn`: strip `\D`, then
`luhn_checksum`: `odd_digits = digits[-1::-2]` summed raw,
`even_digits = digits[-2::-2]` contribute `sum(digits_of(d * 2))`. -/
def validate_ccn (ccn : List Char) : Option Bool := do
  let cleaned_ccn := ccn.filter Char.isDigit
  let digits ← cleaned_ccn.mapM pyDigitVal
  let odd_digits := evens digits.reverse
  let even_digits := evens (digits.reverse.drop 1)
  let checksum :=
    odd_digits.sum + (even_digits.map (fun d => (digits_of (d * 2)).sum)).sum
  some (checksum % 10 == 0)

/-- Source: `CCTrackDataRecognizer.custom_validate_result`. -/
def custom_validate_result (text : List Char) (result : RecognizerResult) :
    Option Bool :=
  if result.entity_type = "CREDIT_CARD_TRACK_DATA" then
    validate_ccn (sliceText text result.start result.end_)
  else some true

/-- The correlated-hit entity types counted toward the quorum. -/
def countedEntity (result : RecognizerResult) : Bool :=
  result.entity_type = "CREDIT_CARD_TRACK_DATA" || result.entity_type = "PERSON"

/-- The validation loop of `analyze`: accumulates `valid_results` and
`track_data_count` in one pass. -/
def loop (text : List Char) :
    List RecognizerResult → Option (List RecognizerResult × Nat)
  | [] => some ([], 0)
  | result :: rest => do
    let ok ← custom_validate_result text result
    let (vs, cnt) ← loop text rest
    if ok then
      some (result :: vs, if countedEntity result then cnt + 1 else cnt)
    else some (vs, cnt)

/-- PERSON spans appended from `nlp_artifacts.entities` with score 0.85. -/
def mkPersons (persons : List (Nat × Nat)) : List RecognizerResult :=
  persons.map (fun p => RecognizerResult.mk "PERSON" p.1 p.2 (mkRat 85 100))

/-- Source: `CCTrackDataRecognizer.analyze`, parameterized by the base-class results
and the PERSON spans detected by the NLP engine: validate every result,
then return all surviving results if at least 3 counted hits remain, else
the empty list. -/
def analyze (text : List Char) (superResults : List RecognizerResult)
    (persons : List (Nat × Nat)) : Option (List RecognizerResult) := do
  let results := superResults ++ mkPersons persons
  let (valid_results, track_data_count) ← loop text results
  if track_data_count ≥ 3 then some valid_results else some []

end CCTrack

namespace PCIDSS
/-!
`us_PCI_DSS_recognizer.py` (`PCI_DSS_CreditCardAndTrackDataRecognizer`).
-/

/-- Source: `filter_unique_results`: keep the first result for each `(start, end)`
position. -/
def filter_unique_results_from (seen : List (Nat × Nat)) :
    List RecognizerResult → List RecognizerResult
  | [] => []
  | result :: rest =>
    if (result.start, result.end_) ∈ seen then
      filter_unique_results_from seen rest
    else result :: filter_unique_results_from ((result.start, result.end_) :: seen) rest

/-- Source: `PCI_DSS_CreditCardAndTrackDataRecognizer.filter_unique_results`. -/
def filter_unique_results (results : List RecognizerResult) :
    List RecognizerResult :=
  filter_unique_results_from [] results

/-- Source: `PCI_DSS_CreditCardAndTrackDataRecognizer.analyze`, parameterized by the
base-class results and by the output of `detect_track_data`:
deduplicate by position, then return only the first remaining result. -/
def analyze (superResults track_data_results : List RecognizerResult) :
    List RecognizerResult :=
  let results := superResults ++ track_data_results
  let unique_results := filter_unique_results results
  match unique_results with
  | [] => []
  | u :: _ => [u]

end PCIDSS

namespace Netherlands
/-!
`netherlands_national_identification_numbers_recognizer.py`
(`NetherlandsNationalIDRecognizer`).
-/

/-- Source: `NetherlandsNationalIDRecognizer._is_valid_checksum`:
`for i in range(9): total_sum += int(national_id[i]) * (9 - i)`, then
`total_sum % 11 == 0`.  Unguarded: `national_id[i]` raises IndexError on
strings shorter than 9 and `int(...)` raises ValueError on non-digits
(both `none` here). -/
def _is_valid_checksum (national_id : List Char) : Option Bool := do
  let total_sum ← (List.range 9).foldlM
    (fun acc i => do
      let c ← national_id.get? i
      let d ← pyDigitVal c
      some (acc + d * (9 - i))) 0
  some (total_sum % 11 == 0)

end Netherlands

namespace Sweden
/-!
`sweden_national_Identification_numbers_recognizer.py`
(`SwedenNationalIDRecognizer`).
-/

/-- The loop of `_is_valid_checksum`: `for digit in reversed(national_id)`,
with the `alternate` flag doubling (and subtracting 9 above 9) every other
digit; `int(digit)` raises (`none`) on non-digits. -/
def luhnLoop : List Char → Bool → Option Nat
  | [], _ => some 0
  | c :: rest, alternate => do
    let num ← pyDigitVal c
    let num := if alternate then
        (let m := num * 2; if m > 9 then m - 9 else m)
      else num
    let tail ← luhnLoop rest (!alternate)
    some (num + tail)

/-- Source: `SwedenNationalIDRecognizer._is_valid_checksum`: take the last 10
characters (`national_id[-10:]`) and run the Luhn loop over them in
reverse; empty input yields sum 0, hence `true`. -/
def _is_valid_checksum (national_id : List Char) : Option Bool := do
  let lastTen := national_id.drop (national_id.length - 10)
  let s ← luhnLoop lastTen.reverse false
  some (s % 10 == 0)

end Sweden

/-- The per-digit contribution of `AllCC.accLoop` at loop index `count`. -/
def accPayload (odd_even count d : Nat) : Nat :=
  let digit := if count % 2 = odd_even then d * 2 else d
  if digit > 9 then digit - 9 else digit

/-- C1: the Italy fiscal-code recognizer is claimed to compute the checksum
over the delimiter-stripped matched text, scoring a checksum-valid
16-character match 1.0.  The source instead validates
`re.sub(r'[^A-Z0-9]', '', result.entity_type)` — the constant label
"ITALY_FISCAL_CODE" — so the checksum-valid matched code "RSSMRA85T10A562S"
(whose stripped matched text passes `_validate_checksum`) is scored 0.0, not
1.0. -/
theorem italy_checksum_validates_entity_type_not_match :
    Italy._validate_checksum
        (Italy.stripNonAlnum (sliceText (strChars "RSSMRA85T10A562S") 0 16)) =
      some true ∧
    Italy.analyze (strChars "RSSMRA85T10A562S")
        [RecognizerResult.mk "ITALY_FISCAL_CODE" 0 16 1] =
      some [RecognizerResult.mk "ITALY_FISCAL_CODE" 0 16 0] := by
  constructor <;> rfl

/-- C2 (counterexample): the EU IBAN recognizer's `analyze` puts a pattern
match whose checksum validation failed into the returned output with score
0.0 — the returned list does contain a Result with score ≤ 0. -/
theorem eu_iban_returns_zero_score_result :
    EUIban.analyze (strChars "XX00AAAA")
        [RecognizerResult.mk "EU_IBAN" 0 8 (mkRat 1 2)] =
      some [RecognizerResult.mk "EU_IBAN" 0 8 0] ∧
    (RecognizerResult.mk "EU_IBAN" 0 8 0).score ≤ 0 := by
  constructor
  · rfl
  · norm_num

/-- C2 (amended): the Australia bank-account recognizer's `analyze` keeps
only results with score strictly above its 0.3 threshold (hence none with
score ≤ 0); the EU IBAN recognizer, by contrast, returns zero-score
checksum failures unfiltered. -/
theorem australia_analyze_scores_above_threshold (text : List Char)
    (results : List RecognizerResult) (r : RecognizerResult)
    (h : r ∈ Australia.analyze text results) : mkRat 3 10 < r.score := by
  unfold Australia.analyze at h
  rw [List.mem_filterMap] at h
  obtain ⟨a, _, ha⟩ := h
  dsimp only at ha
  split at ha
  · cases ha
    assumption
  · cases ha

/-- Witness for C2's amended theorem at a concrete analysis call. -/
theorem australia_analyze_scores_above_threshold_w :
    mkRat 3 10 < (RecognizerResult.mk "AUSTRALIA_BANK_ACCOUNT" 15 30 1).score :=
  australia_analyze_scores_above_threshold
    (strChars "account number 012-785-1234567")
    [RecognizerResult.mk "AUSTRALIA_BANK_ACCOUNT" 15 30 (mkRat 85 100)]
    (RecognizerResult.mk "AUSTRALIA_BANK_ACCOUNT" 15 30 1) (by decide)

/-- C4 (counterexample): on kept candidate `(0, 8, 0.4)` and new overlapping
candidate `(5, 10, 0.9)`, the resolver replaces the kept span by the new
one, producing `(5, 10, 0.9)` — not the widened `(0, 10, 0.9)` the claim
(minimum start, maximum end) requires. -/
theorem canada_merge_not_widened :
    Canada.analyze
        [RecognizerResult.mk "CANADA_DRIVERS_LICENCE" 0 8 (mkRat 2 5),
         RecognizerResult.mk "CANADA_DRIVERS_LICENCE" 5 10 (mkRat 9 10)] =
      [RecognizerResult.mk "CANADA_DRIVERS_LICENCE" 5 10 (mkRat 9 10)] ∧
    RecognizerResult.mk "CANADA_DRIVERS_LICENCE" 0 10 (mkRat 9 10) ∉
      Canada.analyze
        [RecognizerResult.mk "CANADA_DRIVERS_LICENCE" 0 8 (mkRat 2 5),
         RecognizerResult.mk "CANADA_DRIVERS_LICENCE" 5 10 (mkRat 9 10)] := by
  constructor
  · rfl
  · decide

/-- C4 (amended): when a new candidate overlaps a kept candidate, the kept
candidate's `start`, `end` and `score` are all overwritten with the new
candidate's values if the new score is strictly higher, and are left
unchanged otherwise; no min/max span widening takes place. -/
theorem canada_merge_higher_score_overwrites (k r : RecognizerResult)
    (hov : Canada.overlaps k r = true) :
    (k.score < r.score →
      Canada.step [k] r =
        [RecognizerResult.mk k.entity_type r.start r.end_ r.score]) ∧
    (r.score ≤ k.score → Canada.step [k] r = [k]) := by
  unfold Canada.step
  simp only [List.any_cons, List.any_nil, Bool.or_false, hov, if_true,
    List.map_cons, List.map_nil]
  constructor
  · intro h
    rw [if_pos ⟨trivial, h⟩]
  · intro h
    rw [if_neg (fun hc => absurd hc.2 (not_lt.mpr h))]

/-- Witness for C4's amended theorem at a concrete overlapping pair. -/
theorem canada_merge_higher_score_overwrites_w :
    Canada.step [RecognizerResult.mk "CANADA_DRIVERS_LICENCE" 0 8 (mkRat 2 5)]
        (RecognizerResult.mk "CANADA_DRIVERS_LICENCE" 5 10 (mkRat 9 10)) =
      [RecognizerResult.mk "CANADA_DRIVERS_LICENCE" 5 10 (mkRat 9 10)] :=
  (canada_merge_higher_score_overwrites
      (RecognizerResult.mk "CANADA_DRIVERS_LICENCE" 0 8 (mkRat 2 5))
      (RecognizerResult.mk "CANADA_DRIVERS_LICENCE" 5 10 (mkRat 9 10))
      (by decide)).1 (by norm_num)

/-- C5 (counterexample): permuting the candidate list changes the resolved
Result set: on `[(0,5,0.5), (4,9,0.6), (8,12,0.7)]` the sweep returns only
`(8,12,0.7)`, while on the reversed list it also returns `(0,5,0.5)`. -/
theorem canada_resolve_order_dependent :
    List.Perm
        [RecognizerResult.mk "CANADA_DRIVERS_LICENCE" 8 12 (mkRat 7 10),
         RecognizerResult.mk "CANADA_DRIVERS_LICENCE" 4 9 (mkRat 3 5),
         RecognizerResult.mk "CANADA_DRIVERS_LICENCE" 0 5 (mkRat 1 2)]
        [RecognizerResult.mk "CANADA_DRIVERS_LICENCE" 0 5 (mkRat 1 2),
         RecognizerResult.mk "CANADA_DRIVERS_LICENCE" 4 9 (mkRat 3 5),
         RecognizerResult.mk "CANADA_DRIVERS_LICENCE" 8 12 (mkRat 7 10)] ∧
    RecognizerResult.mk "CANADA_DRIVERS_LICENCE" 0 5 (mkRat 1 2) ∈
      Canada.analyze
        [RecognizerResult.mk "CANADA_DRIVERS_LICENCE" 8 12 (mkRat 7 10),
         RecognizerResult.mk "CANADA_DRIVERS_LICENCE" 4 9 (mkRat 3 5),
         RecognizerResult.mk "CANADA_DRIVERS_LICENCE" 0 5 (mkRat 1 2)] ∧
    RecognizerResult.mk "CANADA_DRIVERS_LICENCE" 0 5 (mkRat 1 2) ∉
      Canada.analyze
        [RecognizerResult.mk "CANADA_DRIVERS_LICENCE" 0 5 (mkRat 1 2),
         RecognizerResult.mk "CANADA_DRIVERS_LICENCE" 4 9 (mkRat 3 5),
         RecognizerResult.mk "CANADA_DRIVERS_LICENCE" 8 12 (mkRat 7 10)] := by
  refine ⟨by decide, by decide, by decide⟩

/-- C10: the PCI-DSS recognizer's `analyze` returns at most one Result: it
is exactly the first element (if any) of the position-deduplicated
candidate list. -/
theorem pci_analyze_single_result
    (superResults track_data_results : List RecognizerResult) :
    (PCIDSS.analyze superResults track_data_results).length ≤ 1 ∧
    PCIDSS.analyze superResults track_data_results =
      (PCIDSS.filter_unique_results (superResults ++ track_data_results)).take 1 := by
  unfold PCIDSS.analyze
  cases h : PCIDSS.filter_unique_results (superResults ++ track_data_results) <;>
    simp [h]

/-- The overlap test is symmetric. -/
theorem canada_overlaps_symm (a b : RecognizerResult) :
    Canada.overlaps a b = Canada.overlaps b a := by
  simp [Canada.overlaps, Bool.or_comm]

/-- When a new candidate overlaps nothing kept, the update map is the
identity. -/
theorem canada_map_disjoint (kept : List RecognizerResult)
    (r : RecognizerResult) (h : ∀ a ∈ kept, Canada.overlaps a r = false) :
    (kept.map (fun fr =>
      if Canada.overlaps fr r ∧ fr.score < r.score then
        RecognizerResult.mk fr.entity_type r.start r.end_ r.score
      else fr)) = kept := by
  induction kept with
  | nil => rfl
  | cons a t ih =>
    simp only [List.map_cons]
    rw [if_neg, ih (fun x hx => h x (List.mem_cons_of_mem _ hx))]
    intro hc
    have ha := h a (List.mem_cons_self _ _)
    rw [ha] at hc
    exact Bool.false_ne_true hc.1

/-- When a new candidate overlaps nothing kept, the sweep step appends it. -/
theorem canada_step_disjoint (kept : List RecognizerResult)
    (r : RecognizerResult) (h : ∀ a ∈ kept, Canada.overlaps a r = false) :
    Canada.step kept r = kept ++ [r] := by
  unfold Canada.step
  have hany : (kept.any (fun fr => Canada.overlaps fr r)) = false := by
    rw [List.any_eq_false]
    intro a ha
    simp [h a ha]
  rw [hany, canada_map_disjoint kept r h]
  simp

/-- Folding the sweep over pairwise non-overlapping candidates appends them
all. -/
theorem canada_foldl_disjoint :
    ∀ (l kept : List RecognizerResult),
      (∀ a ∈ kept, ∀ b ∈ l, Canada.overlaps a b = false) →
      l.Pairwise (fun a b => Canada.overlaps a b = false) →
      l.foldl Canada.step kept = kept ++ l
  | [], kept, _, _ => by simp
  | b :: t, kept, hk, hp => by
    rw [List.foldl_cons,
      canada_step_disjoint kept b (fun a ha => hk a ha b (List.mem_cons_self _ _)),
      canada_foldl_disjoint t (kept ++ [b]) ?_ (List.Pairwise.of_cons hp)]
    · simp
    · intro a ha c hc
      rcases List.mem_append.mp ha with h1 | h2
      · exact hk a h1 c (List.mem_cons_of_mem _ hc)
      · rw [List.mem_singleton.mp h2]
        exact (List.pairwise_cons.mp hp).1 c hc

/-- On pairwise non-overlapping candidates the resolver is the identity. -/
theorem canada_resolve_eq_self (l : List RecognizerResult)
    (hp : l.Pairwise (fun a b => Canada.overlaps a b = false)) :
    Canada.analyze l = l := by
  unfold Canada.analyze
  simpa using canada_foldl_disjoint l [] (by simp) hp

/-- C5 (amended): the overlap-resolution sweep is a deterministic function of
the input list, and on pairwise non-overlapping candidate lists it is
order-independent: a permutation of the candidates yields a permutation
(hence the same set) of Results.  On overlapping candidates the Result set
does depend on input order. -/
theorem canada_resolve_perm_invariant_of_disjoint
    (l l' : List RecognizerResult)
    (hp : l.Pairwise (fun a b => Canada.overlaps a b = false))
    (hperm : l'.Perm l) :
    (Canada.analyze l').Perm (Canada.analyze l) := by
  have hp' : l'.Pairwise (fun a b => Canada.overlaps a b = false) :=
    (hperm.pairwise_iff (fun hxy => by rw [canada_overlaps_symm]; exact hxy)).mpr hp
  rw [canada_resolve_eq_self l hp, canada_resolve_eq_self l' hp']
  exact hperm

/-- Witness for C5's amended theorem on concrete disjoint candidates. -/
theorem canada_resolve_perm_invariant_of_disjoint_w :
    (Canada.analyze
        [RecognizerResult.mk "CANADA_DRIVERS_LICENCE" 8 12 (mkRat 7 10),
         RecognizerResult.mk "CANADA_DRIVERS_LICENCE" 0 5 (mkRat 1 2)]).Perm
      (Canada.analyze
        [RecognizerResult.mk "CANADA_DRIVERS_LICENCE" 0 5 (mkRat 1 2),
         RecognizerResult.mk "CANADA_DRIVERS_LICENCE" 8 12 (mkRat 7 10)]) :=
  canada_resolve_perm_invariant_of_disjoint
    [RecognizerResult.mk "CANADA_DRIVERS_LICENCE" 0 5 (mkRat 1 2),
     RecognizerResult.mk "CANADA_DRIVERS_LICENCE" 8 12 (mkRat 7 10)]
    [RecognizerResult.mk "CANADA_DRIVERS_LICENCE" 8 12 (mkRat 7 10),
     RecognizerResult.mk "CANADA_DRIVERS_LICENCE" 0 5 (mkRat 1 2)]
    (by decide) (by decide)

/-- C3 (counterexample): the Netherlands validator raises (IndexError) on the
empty string instead of returning false; the Sweden validator raises
(ValueError) on a 10-letter string, and returns `true` — not false — on the
empty string. -/
theorem checksum_validators_raise_on_malformed :
    Netherlands._is_valid_checksum [] = none ∧
    Sweden._is_valid_checksum (strChars "ABCDEFGHIJ") = none ∧
    Sweden._is_valid_checksum [] = some true := by
  refine ⟨rfl, by decide, rfl⟩

/-- The Sweden Luhn loop never raises on all-digit input. -/
theorem sweden_luhnLoop_total :
    ∀ (l : List Char) (alt : Bool), (∀ c ∈ l, c.isDigit) →
      ∃ n, Sweden.luhnLoop l alt = some n
  | [], _, _ => ⟨0, rfl⟩
  | c :: rest, alt, h => by
    obtain ⟨n, hn⟩ :=
      sweden_luhnLoop_total rest (!alt) (fun x hx => h x (List.mem_cons_of_mem _ hx))
    rw [← Option.isSome_iff_exists]
    simp [Sweden.luhnLoop, pyDigitVal, h c (List.mem_cons_self _ _), hn]

/-- C3 (amended): on inputs of the shape the recognizers' regex patterns
guarantee (Netherlands: a string whose first nine characters are digits;
Sweden: a delimiter-stripped all-digit string), both checksum validators
terminate normally with a boolean; on arbitrary malformed strings they can
raise instead of returning false. -/
theorem checksum_validators_total_on_expected_shape :
    (∀ s : List Char, s.length = 9 → (∀ c ∈ s, c.isDigit) →
      ∃ b, Netherlands._is_valid_checksum s = some b) ∧
    (∀ s : List Char, (∀ c ∈ s, c.isDigit) →
      ∃ b, Sweden._is_valid_checksum s = some b) := by
  constructor
  · intro s hlen hdig
    obtain ⟨c0, s, rfl⟩ := List.exists_of_length_succ s hlen
    obtain ⟨c1, s, rfl⟩ := List.exists_of_length_succ s (by simpa using hlen)
    obtain ⟨c2, s, rfl⟩ := List.exists_of_length_succ s (by simpa using hlen)
    obtain ⟨c3, s, rfl⟩ := List.exists_of_length_succ s (by simpa using hlen)
    obtain ⟨c4, s, rfl⟩ := List.exists_of_length_succ s (by simpa using hlen)
    obtain ⟨c5, s, rfl⟩ := List.exists_of_length_succ s (by simpa using hlen)
    obtain ⟨c6, s, rfl⟩ := List.exists_of_length_succ s (by simpa using hlen)
    obtain ⟨c7, s, rfl⟩ := List.exists_of_length_succ s (by simpa using hlen)
    obtain ⟨c8, s, rfl⟩ := List.exists_of_length_succ s (by simpa using hlen)
    simp only [List.mem_cons] at hdig
    rw [← Option.isSome_iff_exists]
    simp [Netherlands._is_valid_checksum,
      show List.range 9 = [0, 1, 2, 3, 4, 5, 6, 7, 8] from rfl, pyDigitVal,
      hdig _ (Or.inl rfl), hdig _ (Or.inr (Or.inl rfl)),
      hdig _ (Or.inr (Or.inr (Or.inl rfl))),
      hdig _ (Or.inr (Or.inr (Or.inr (Or.inl rfl)))),
      hdig _ (Or.inr (Or.inr (Or.inr (Or.inr (Or.inl rfl))))),
      hdig _ (Or.inr (Or.inr (Or.inr (Or.inr (Or.inr (Or.inl rfl)))))),
      hdig _ (Or.inr (Or.inr (Or.inr (Or.inr (Or.inr (Or.inr (Or.inl rfl))))))),
      hdig _ (Or.inr (Or.inr (Or.inr (Or.inr (Or.inr (Or.inr (Or.inr (Or.inl rfl)))))))),
      hdig _ (Or.inr (Or.inr (Or.inr (Or.inr (Or.inr (Or.inr (Or.inr (Or.inr (Or.inl rfl)))))))))]
  · intro s hdig
    obtain ⟨n, hn⟩ := sweden_luhnLoop_total
      ((s.drop (s.length - 10)).reverse) false
      (fun c hc => hdig c (List.drop_subset _ _ (List.mem_reverse.mp hc)))
    rw [← Option.isSome_iff_exists]
    simp [Sweden._is_valid_checksum, hn]

/-- Witness for C3's amended theorem at concrete well-formed inputs. -/
theorem checksum_validators_total_on_expected_shape_w :
    (∃ b, Netherlands._is_valid_checksum (strChars "111222333") = some b) ∧
    (∃ b, Sweden._is_valid_checksum (strChars "4111111111") = some b) :=
  ⟨checksum_validators_total_on_expected_shape.1 (strChars "111222333")
      (by decide) (by decide),
   checksum_validators_total_on_expected_shape.2 (strChars "4111111111")
      (by decide)⟩

/-- Unfolding lemma for the score constant 0.3. -/
theorem mkRat_3_10_eq : (mkRat 3 10 : ℚ) = 3/10 := by
  norm_num [Rat.mkRat_eq_div]

/-- Unfolding lemma for the score constant 0.15. -/
theorem mkRat_15_100_eq : (mkRat 15 100 : ℚ) = 3/20 := by
  norm_num [Rat.mkRat_eq_div]

/-- Unfolding lemma for the score constant 0.5. -/
theorem mkRat_1_2_eq : (mkRat 1 2 : ℚ) = 1/2 := by
  norm_num [Rat.mkRat_eq_div]

/-- The positive-context stage keeps scores within [0, 1]. -/
theorem australia_contextStage_bounds (text : List Char) (s : ℚ)
    (h0 : 0 ≤ s) (h1 : s ≤ 1) :
    0 ≤ Australia.contextStage text s ∧ Australia.contextStage text s ≤ 1 := by
  unfold Australia.contextStage
  split
  · rw [mkRat_3_10_eq]
    constructor
    · positivity
    · nlinarith
  · exact ⟨h0, h1⟩

/-- The negative-context stage keeps scores within [0, 1]. -/
theorem australia_negStage_bounds (text : List Char) (s : ℚ)
    (h0 : 0 ≤ s) (h1 : s ≤ 1) :
    0 ≤ Australia.negStage text s ∧ Australia.negStage text s ≤ 1 := by
  unfold Australia.negStage
  split
  · rw [mkRat_15_100_eq]
    constructor
    · positivity
    · nlinarith
  · exact ⟨h0, h1⟩

/-- The BSB-lookup stage keeps scores within [0, 1]. -/
theorem australia_bsbStage_bounds (text : List Char) (r : RecognizerResult)
    (s : ℚ) (h0 : 0 ≤ s) (h1 : s ≤ 1) :
    0 ≤ Australia.bsbStage text r s ∧ Australia.bsbStage text r s ≤ 1 := by
  unfold Australia.bsbStage
  split
  · split
    · unfold Australia._match_known_bsb
      split
      · norm_num
      · rw [mkRat_1_2_eq]
        norm_num
    · exact ⟨h0, h1⟩
  · exact ⟨h0, h1⟩

/-- The Spain context adjustment keeps scores within [0, 1]. -/
theorem spain_adjust_bounds (text : List Char) (s : ℚ)
    (h0 : 0 ≤ s) (h1 : s ≤ 1) :
    0 ≤ Spain._adjust_score_based_on_context text s ∧
      Spain._adjust_score_based_on_context text s ≤ 1 := by
  unfold Spain._adjust_score_based_on_context
  split
  · rw [mkRat_3_10_eq]
    exact ⟨le_min (by nlinarith) (by norm_num), min_le_right _ _⟩
  · exact ⟨h0, h1⟩

/-- Score bounds propagate through the whole Spain `analyze` loop. -/
theorem spain_analyze_bounds (text : List Char) :
    ∀ (results out : List RecognizerResult),
      (∀ r ∈ results, 0 ≤ r.score ∧ r.score ≤ 1) →
      Spain.analyze text results = some out →
      ∀ r ∈ out, 0 ≤ r.score ∧ r.score ≤ 1
  | [], out, _, h => by
    simp only [Spain.analyze] at h
    cases h
    simp
  | result :: rest, out, hb, h => by
    simp only [Spain.analyze] at h
    rcases hval : Spain._validate_dni_checksum
        (sliceText text result.start result.end_) with _ | ok <;>
      rw [hval] at h
    · cases h
    · rcases htail : Spain.analyze text rest with _ | tail <;> rw [htail] at h
      · cases h
      · cases h
        intro r hr
        rcases List.mem_cons.mp hr with rfl | hmem
        · dsimp only
          split
          · exact spain_adjust_bounds text result.score
              (hb result (List.mem_cons_self _ _)).1
              (hb result (List.mem_cons_self _ _)).2
          · norm_num
        · exact spain_analyze_bounds text rest tail
            (fun x hx => hb x (List.mem_cons_of_mem _ hx)) htail r hmem

/-- C6: with pattern base scores in [0, 1], every score stays in [0, 1]
after every stage — each Australia stage (positive context, negative
context, BSB lookup) individually, the filtered Australia output, and the
Spain checksum-plus-context output. -/
theorem score_bounds_all_stages :
    (∀ text (s : ℚ), 0 ≤ s → s ≤ 1 →
      0 ≤ Australia.contextStage text s ∧ Australia.contextStage text s ≤ 1) ∧
    (∀ text (s : ℚ), 0 ≤ s → s ≤ 1 →
      0 ≤ Australia.negStage text s ∧ Australia.negStage text s ≤ 1) ∧
    (∀ text r (s : ℚ), 0 ≤ s → s ≤ 1 →
      0 ≤ Australia.bsbStage text r s ∧ Australia.bsbStage text r s ≤ 1) ∧
    (∀ text results, (∀ r ∈ results, 0 ≤ r.score ∧ r.score ≤ 1) →
      ∀ r ∈ Australia.analyze text results, 0 ≤ r.score ∧ r.score ≤ 1) ∧
    (∀ text results out, (∀ r ∈ results, 0 ≤ r.score ∧ r.score ≤ 1) →
      Spain.analyze text results = some out →
      ∀ r ∈ out, 0 ≤ r.score ∧ r.score ≤ 1) := by
  refine ⟨australia_contextStage_bounds, australia_negStage_bounds,
    australia_bsbStage_bounds, ?_, fun text results out hb h =>
      spain_analyze_bounds text results out hb h⟩
  intro text results hb r hr
  unfold Australia.analyze at hr
  rw [List.mem_filterMap] at hr
  obtain ⟨a, ha, hfa⟩ := hr
  dsimp only at hfa
  split at hfa
  · cases hfa
    exact australia_bsbStage_bounds text a _
      (australia_negStage_bounds text _
        (australia_contextStage_bounds text a.score (hb a ha).1 (hb a ha).2).1
        (australia_contextStage_bounds text a.score (hb a ha).1 (hb a ha).2).2).1
      (australia_negStage_bounds text _
        (australia_contextStage_bounds text a.score (hb a ha).1 (hb a ha).2).1
        (australia_contextStage_bounds text a.score (hb a ha).1 (hb a ha).2).2).2
  · cases hfa

/-- Witness for C6 at concrete stage inputs and a concrete Spain call. -/
theorem score_bounds_all_stages_w :
    (0 ≤ Australia.contextStage [] (mkRat 1 2) ∧
      Australia.contextStage [] (mkRat 1 2) ≤ 1) ∧
    (0 ≤ Australia.negStage [] (mkRat 1 2) ∧
      Australia.negStage [] (mkRat 1 2) ≤ 1) ∧
    (0 ≤ Australia.bsbStage []
        (RecognizerResult.mk "AUSTRALIA_BANK_ACCOUNT" 0 0 1) (mkRat 1 2) ∧
      Australia.bsbStage []
        (RecognizerResult.mk "AUSTRALIA_BANK_ACCOUNT" 0 0 1) (mkRat 1 2) ≤ 1) ∧
    (0 ≤ (RecognizerResult.mk "SPAIN_DNI" 0 9 (mkRat 7 10)).score ∧
      (RecognizerResult.mk "SPAIN_DNI" 0 9 (mkRat 7 10)).score ≤ 1) := by
  have h0 : (0 : ℚ) ≤ mkRat 1 2 := by rw [mkRat_1_2_eq]; norm_num
  have h1 : (mkRat 1 2 : ℚ) ≤ 1 := by rw [mkRat_1_2_eq]; norm_num
  refine ⟨score_bounds_all_stages.1 [] (mkRat 1 2) h0 h1,
    score_bounds_all_stages.2.1 [] (mkRat 1 2) h0 h1,
    score_bounds_all_stages.2.2.1 [] (RecognizerResult.mk "AUSTRALIA_BANK_ACCOUNT" 0 0 1)
      (mkRat 1 2) h0 h1,
    score_bounds_all_stages.2.2.2.2 (strChars "12345678Z")
      [RecognizerResult.mk "SPAIN_DNI" 0 9 (mkRat 7 10)]
      [RecognizerResult.mk "SPAIN_DNI" 0 9 (mkRat 7 10)]
      ?_ (by rfl) (RecognizerResult.mk "SPAIN_DNI" 0 9 (mkRat 7 10))
      (List.mem_cons_self _ _)⟩
  intro r hr
  rw [List.mem_singleton.mp hr]
  constructor
  · rw [show (RecognizerResult.mk "SPAIN_DNI" 0 9 (mkRat 7 10)).score = mkRat 7 10 from rfl]
    norm_num [Rat.mkRat_eq_div]
  · rw [show (RecognizerResult.mk "SPAIN_DNI" 0 9 (mkRat 7 10)).score = mkRat 7 10 from rfl]
    norm_num [Rat.mkRat_eq_div]

/-- C8: the Spanish DNI checksum validator accepts `12345678Z`, rejects
`12345678A`, and in general, on 8 digits followed by a letter, accepts
exactly when the trailing letter is the character of
"TRWAGMYFPDXBNJZSQVHLCKE" at index (numeric value mod 23). -/
theorem dni_checksum_mod23 :
    (Spain._validate_dni_checksum (strChars "12345678Z") = some true ∧
     Spain._validate_dni_checksum (strChars "12345678A") = some false) ∧
    (∀ (ds : List Char) (c : Char) (n : Nat), ds.length = 8 →
      pyParseNat ds = some n →
      Spain._validate_dni_checksum (ds ++ [c]) =
        some (Spain.valid_letters.getD (n % 23) ' ' == c)) := by
  refine ⟨⟨rfl, rfl⟩, ?_⟩
  intro ds c n _ hparse
  unfold Spain._validate_dni_checksum
  rw [List.dropLast_concat, List.getLast?_concat]
  dsimp only
  rw [hparse]
  rfl

/-- Witness for C8's general statement at the reference value. -/
theorem dni_checksum_mod23_w :
    Spain._validate_dni_checksum (strChars "12345678" ++ ['Z']) =
      some (Spain.valid_letters.getD (12345678 % 23) ' ' == 'Z') :=
  dni_checksum_mod23.2 (strChars "12345678") 'Z' 12345678 (by decide) (by decide)

/-- Source: `List.mapM pyDigitVal` succeeds with the digit values on all-digit
input. -/
theorem mapM_pyDigitVal_eq (l : List Char) (h : ∀ c ∈ l, c.isDigit) :
    l.mapM pyDigitVal = some (digitVals l) := by
  induction l with
  | nil => rfl
  | cons c t ih =>
    rw [List.mapM_cons,
      show pyDigitVal c = some (c.toNat - '0'.toNat) from by
        simp [pyDigitVal, h c (List.mem_cons_self _ _)],
      ih (fun x hx => h x (List.mem_cons_of_mem _ hx))]
    rfl

/-- Source: `custom_validate_result` never raises: the Luhn validation only ever
parses characters that survived the digit filter. -/
theorem cc_custom_validate_total (text : List Char) (r : RecognizerResult) :
    ∃ b, CCTrack.custom_validate_result text r = some b := by
  rw [← Option.isSome_iff_exists]
  unfold CCTrack.custom_validate_result
  split
  · unfold CCTrack.validate_ccn
    dsimp only
    rw [mapM_pyDigitVal_eq _ (fun c hc => List.of_mem_filter hc)]
    rfl
  · rfl

/-- The one-pass validation loop computes the filter of validated results
together with the count of correlated hits among them. -/
theorem cc_loop_characterization (text : List Char) :
    ∀ rs : List RecognizerResult,
      CCTrack.loop text rs =
        some (rs.filter (fun r => (CCTrack.custom_validate_result text r).getD false),
          (rs.filter (fun r => (CCTrack.custom_validate_result text r).getD false)).countP
            (fun r => CCTrack.countedEntity r))
  | [] => rfl
  | r :: rest => by
    obtain ⟨b, hb⟩ := cc_custom_validate_total text r
    simp only [CCTrack.loop]
    rw [hb, cc_loop_characterization text rest]
    cases b
    · simp [List.filter_cons, hb]
    · cases hent : CCTrack.countedEntity r
      · simp [List.filter_cons, hb, List.countP_cons, hent]
      · simp [List.filter_cons, hb, List.countP_cons, hent]

/-- The whole `analyze` call reduces to the quorum test over the validated
hits. -/
theorem cc_analyze_characterization (text : List Char)
    (superResults : List RecognizerResult) (persons : List (Nat × Nat)) :
    CCTrack.analyze text superResults persons =
      if 3 ≤ ((superResults ++ CCTrack.mkPersons persons).filter
          (fun r => (CCTrack.custom_validate_result text r).getD false)).countP
          (fun r => CCTrack.countedEntity r)
      then some ((superResults ++ CCTrack.mkPersons persons).filter
          (fun r => (CCTrack.custom_validate_result text r).getD false))
      else some [] := by
  unfold CCTrack.analyze
  dsimp only
  rw [cc_loop_characterization]
  rfl

/-- C9: the track-data recognizer returns the empty list when fewer than 3
validated correlated hits (track-data matches plus detected person names)
are present, and all validated hits when at least 3 are present. -/
theorem cc_track_quorum (text : List Char)
    (superResults : List RecognizerResult) (persons : List (Nat × Nat)) :
    ((((superResults ++ CCTrack.mkPersons persons).filter
        (fun r => (CCTrack.custom_validate_result text r).getD false)).countP
        (fun r => CCTrack.countedEntity r)) < 3 →
      CCTrack.analyze text superResults persons = some []) ∧
    (3 ≤ (((superResults ++ CCTrack.mkPersons persons).filter
        (fun r => (CCTrack.custom_validate_result text r).getD false)).countP
        (fun r => CCTrack.countedEntity r)) →
      CCTrack.analyze text superResults persons =
        some ((superResults ++ CCTrack.mkPersons persons).filter
          (fun r => (CCTrack.custom_validate_result text r).getD false))) := by
  constructor <;> intro h
  · rw [cc_analyze_characterization, if_neg (by omega)]
  · rw [cc_analyze_characterization, if_pos h]

/-- Witness for C9: a text with only two correlated hits yields no
Results. -/
theorem cc_track_quorum_w :
    CCTrack.analyze (strChars "hello world") [] [(0, 5), (6, 11)] = some [] :=
  (cc_track_quorum (strChars "hello world") [] [(0, 5), (6, 11)]).1 (by decide)

/-- An ASCII digit's value is below 10. -/
theorem digit_val_lt (c : Char) (h : c.isDigit = true) :
    c.toNat - '0'.toNat < 10 := by
  simp only [Char.isDigit, Bool.and_eq_true, decide_eq_true_eq] at h
  obtain ⟨h1, h2⟩ := h
  rw [ge_iff_le, UInt32.le_def, BitVec.le_def] at h1
  rw [UInt32.le_def, BitVec.le_def] at h2
  simp [Char.toNat, UInt32.toNat] at *
  omega

/-- A digit character survives the `[\s-]` strip. -/
theorem digit_not_stripped (c : Char) (h : c.isDigit = true) :
    (isPyWhitespace c || c = '-') = false := by
  cases hw : (isPyWhitespace c || c = '-')
  · rfl
  · exfalso
    simp only [isPyWhitespace, Bool.or_eq_true, decide_eq_true_eq] at hw
    have hc : c = ' ' ∨ c = '\t' ∨ c = '\n' ∨ c = '\r' ∨ c = '\x0b' ∨
        c = '\x0c' ∨ c = '-' := by tauto
    rcases hc with rfl | rfl | rfl | rfl | rfl | rfl | rfl <;>
      exact absurd h (by decide)

/-- Source: `evens` of a cons skips the next element. -/
theorem evens_cons (d : α) (rest : List α) :
    CCTrack.evens (d :: rest) = d :: CCTrack.evens (rest.drop 1) := by
  cases rest <;> rfl

/-- Source: `evens` only returns elements of its input. -/
theorem evens_subset : ∀ (l : List α) (x : α), x ∈ CCTrack.evens l → x ∈ l
  | [], _, hx => by simp [CCTrack.evens] at hx
  | [y], x, hx => by simpa [CCTrack.evens] using hx
  | y :: z :: rest, x, hx => by
    rw [show CCTrack.evens (y :: z :: rest) = y :: CCTrack.evens rest from rfl] at hx
    rcases List.mem_cons.mp hx with rfl | h
    · exact List.mem_cons_self _ _
    · exact List.mem_cons_of_mem _ (List.mem_cons_of_mem _ (evens_subset rest x h))

/-- The alternating Luhn accumulator splits into the even-index and odd-index
sublists. -/
theorem luhnAux_evens : ∀ l : List Nat,
    luhnAux false l = (CCTrack.evens l).sum +
      ((CCTrack.evens (l.drop 1)).map (fun d => dsub (2 * d))).sum ∧
    luhnAux true l = ((CCTrack.evens l).map (fun d => dsub (2 * d))).sum +
      (CCTrack.evens (l.drop 1)).sum
  | [] => by simp [luhnAux, CCTrack.evens]
  | d :: rest => by
    obtain ⟨ihf, iht⟩ := luhnAux_evens rest
    constructor
    · rw [show luhnAux false (d :: rest) = d + luhnAux true rest from rfl, iht,
        evens_cons]
      simp only [List.drop_one, List.tail_cons, List.sum_cons, List.map_cons]
      omega
    · rw [show luhnAux true (d :: rest) = dsub (2 * d) + luhnAux false rest from rfl,
        ihf, evens_cons]
      simp only [List.drop_one, List.tail_cons, List.sum_cons, List.map_cons]
      omega

/-- For a digit value, the decimal digit sum of the double equals the
subtract-9 adjustment. -/
theorem digits_of_double_sum : ∀ d, d < 10 →
    (CCTrack.digits_of (d * 2)).sum = dsub (2 * d) := by decide

/-- Source: `CCTrackDataRecognizer.validate_ccn` on an all-digit string computes the
Luhn-sum divisibility test. -/
theorem validate_ccn_digits (s : List Char) (h : ∀ c ∈ s, c.isDigit) :
    CCTrack.validate_ccn s = some (luhnSum (digitVals s) % 10 == 0) := by
  unfold CCTrack.validate_ccn
  dsimp only
  rw [List.filter_eq_self.mpr h, mapM_pyDigitVal_eq s h]
  have hlt : ∀ d ∈ digitVals s, d < 10 := by
    intro d hd
    obtain ⟨c, hc, rfl⟩ := List.mem_map.mp hd
    exact digit_val_lt c (h c hc)
  have hmap : (CCTrack.evens ((digitVals s).reverse.drop 1)).map
        (fun d => (CCTrack.digits_of (d * 2)).sum) =
      (CCTrack.evens ((digitVals s).reverse.drop 1)).map
        (fun d => dsub (2 * d)) := by
    apply List.map_congr_left
    intro a ha
    exact digits_of_double_sum a (hlt a (List.mem_reverse.mp
      (List.drop_subset _ _ (evens_subset _ a ha))))
  have hsum : (CCTrack.evens (digitVals s).reverse).sum +
      ((CCTrack.evens ((digitVals s).reverse.drop 1)).map
        (fun d => (CCTrack.digits_of (d * 2)).sum)).sum =
      luhnSum (digitVals s) := by
    rw [hmap, luhnSum, (luhnAux_evens (digitVals s).reverse).1]
  rw [Option.bind_eq_bind, Option.some_bind, hsum]

/-- Unfolding equation for `accLoop` on a cons. -/
theorem accLoop_cons (oe c d : Nat) (rest : List Nat) :
    AllCC.accLoop oe c (d :: rest) =
      accPayload oe c d + AllCC.accLoop oe (c + 1) rest := rfl

/-- Source: `accLoop` over a right-extended list. -/
theorem accLoop_append : ∀ (oe : Nat) (l : List Nat) (c d : Nat),
    AllCC.accLoop oe c (l ++ [d]) =
      AllCC.accLoop oe c l + accPayload oe (c + l.length) d
  | oe, [], c, d => by
    rw [List.nil_append, accLoop_cons]
    simp [show AllCC.accLoop oe (c + 1) [] = 0 from rfl,
      show AllCC.accLoop oe c [] = 0 from rfl]
  | oe, x :: l, c, d => by
    rw [List.cons_append, accLoop_cons, accLoop_append oe l (c + 1) d,
      accLoop_cons,
      show c + 1 + l.length = c + (x :: l).length by
        simp only [List.length_cons]; omega]
    omega

/-- Incrementing the index flips the mod-2 doubling test (for a 0/1
parity). -/
theorem decide_mod_two_flip (x oe : Nat) (hoe : oe < 2) :
    (!decide ((x + 1) % 2 ≠ oe)) = decide (x % 2 ≠ oe) := by
  by_cases h : x % 2 = oe
  · have h1 : (x + 1) % 2 ≠ oe := by omega
    simp [h, h1]
  · have h1 : (x + 1) % 2 = oe := by omega
    simp [h, h1]

/-- For digit values the loop payload is the Luhn doubling adjustment. -/
theorem accPayload_eq (oe k d : Nat) (hd : d < 10) (hoe : oe < 2) :
    accPayload oe k d = if decide ((k + 1) % 2 ≠ oe) then dsub (2 * d) else d := by
  unfold accPayload dsub
  by_cases h : k % 2 = oe
  · have h1 : (k + 1) % 2 ≠ oe := by omega
    simp [h, h1, Nat.mul_comm d 2]
  · have h1 : (k + 1) % 2 = oe := by omega
    simp [h, h1]
    omega

/-- The forward indexed Luhn loop of the credit-card validator agrees with
the right-to-left alternating Luhn accumulator. -/
theorem accLoop_eq_luhnAux (oe : Nat) (hoe : oe < 2) (l : List Nat)
    (hl : ∀ d ∈ l, d < 10) :
    ∀ c : Nat, AllCC.accLoop oe c l =
      luhnAux (decide ((c + l.length) % 2 ≠ oe)) l.reverse := by
  induction l using List.reverseRecOn with
  | nil => intro c; rfl
  | append_singleton l d ih =>
    intro c
    rw [accLoop_append, List.reverse_append, List.reverse_singleton,
      List.singleton_append,
      show luhnAux (decide ((c + (l ++ [d]).length) % 2 ≠ oe)) (d :: l.reverse) =
        (if decide ((c + (l ++ [d]).length) % 2 ≠ oe) then dsub (2 * d) else d) +
          luhnAux (!decide ((c + (l ++ [d]).length) % 2 ≠ oe)) l.reverse from rfl]
    have hlen : c + (l ++ [d]).length = c + l.length + 1 := by
      simp only [List.length_append, List.length_singleton]
      omega
    rw [hlen, decide_mod_two_flip _ _ hoe,
      ih (fun x hx => hl x (List.mem_append_left _ hx)) c,
      accPayload_eq oe (c + l.length) d (hl d (List.mem_append_right _ (List.mem_singleton_self _))) hoe]
    omega

/-- Source: `AllCreditCardNumberRecognizer._is_valid_credit_card` on a nonempty
all-digit string computes the Luhn-sum divisibility test. -/
theorem is_valid_credit_card_digits (s : List Char) (hne : s ≠ [])
    (h : ∀ c ∈ s, c.isDigit) :
    AllCC._is_valid_credit_card s = (luhnSum (digitVals s) % 10 == 0) := by
  unfold AllCC._is_valid_credit_card
  dsimp only
  rw [List.filter_eq_self.mpr
    (fun a ha => by rw [digit_not_stripped a (h a ha)]; rfl)]
  have hds : AllCC.pyIsDigitStr s = true := by
    unfold AllCC.pyIsDigitStr
    cases s with
    | nil => exact absurd rfl hne
    | cons a t =>
      simp only [List.isEmpty_cons, Bool.not_false, Bool.true_and,
        List.all_eq_true]
      exact h
  rw [hds]
  simp only [Bool.not_true, Bool.false_eq_true, if_false]
  rw [accLoop_eq_luhnAux (s.length % 2) (Nat.mod_lt _ (by norm_num))
    (digitVals s)
    (fun d hd => by
      obtain ⟨c, hc, rfl⟩ := List.mem_map.mp hd
      exact digit_val_lt c (h c hc)) 0]
  have : (decide ((0 + (digitVals s).length) % 2 ≠ s.length % 2)) = false := by
    simp [digitVals]
  rw [this, luhnSum]

/-- C7: both Luhn validators accept `4111111111111111` and reject
`4111111111111112`, and on every nonempty delimiter-stripped digit string
they accept exactly when the Luhn sum (doubling every second digit from the
right, subtracting 9 from products above 9) is divisible by 10. -/
theorem luhn_validators_correct :
    (AllCC._is_valid_credit_card (strChars "4111111111111111") = true ∧
     AllCC._is_valid_credit_card (strChars "4111111111111112") = false ∧
     CCTrack.validate_ccn (strChars "4111111111111111") = some true ∧
     CCTrack.validate_ccn (strChars "4111111111111112") = some false) ∧
    (∀ s : List Char, s ≠ [] → (∀ c ∈ s, c.isDigit) →
      AllCC._is_valid_credit_card s = (luhnSum (digitVals s) % 10 == 0) ∧
      CCTrack.validate_ccn s = some (luhnSum (digitVals s) % 10 == 0)) := by
  refine ⟨⟨by decide, by decide, by decide, by decide⟩, ?_⟩
  intro s hne h
  exact ⟨is_valid_credit_card_digits s hne h, validate_ccn_digits s h⟩

/-- Witness for C7's general statement on a concrete digit string. -/
theorem luhn_validators_correct_w :
    AllCC._is_valid_credit_card (strChars "42") =
      (luhnSum (digitVals (strChars "42")) % 10 == 0) ∧
    CCTrack.validate_ccn (strChars "42") =
      some (luhnSum (digitVals (strChars "42")) % 10 == 0) :=
  luhn_validators_correct.2 (strChars "42") (by decide) (by decide)
